import Mathlib

/-!
# SteamTracker — price-history and event-detection engine, shallowly embedded

This file embeds the persistent data model and the core operations of
`src/steam_price_bot.py` as pure Lean functions over an explicit database
state, and proves (or refutes) the specification's claims about them.

Modelling conventions:
* Python floats (prices, drop percentages) are modelled as `ℚ`; the ISO
  timestamp strings written by `datetime.now().isoformat()` are modelled as
  abstract `ℚ` timestamps threaded in explicitly (`now` parameters).
* Each SQLite table is a list of rows in insertion order.  `SELECT ...
  fetchone` on a key is `List.find?` on that key; `UPDATE ... WHERE key`
  maps over all key-matching rows; a plain `INSERT` appends; `INSERT OR
  REPLACE` drops the conflicting rows and appends; `INSERT OR IGNORE` under
  a UNIQUE constraint appends only when no row with the key exists;
  `DELETE ... WHERE key` filters the key's rows out.
* Python `datetime` values are modelled by `PyDateTime` (a civil date plus a
  time-of-day fraction); comparison and subtraction go through the rational
  day number `PyDateTime.toRat`, with `daysFromCivil` the standard civil →
  day-count conversion, and `timedelta.days` is `Int.floor` of the rational
  day difference.
* A call whose SQLite connection fails raises, is caught by the function's
  handler and the connection closes without `commit`, so that single call
  leaves the database unchanged and returns its fallback value; the `_f`
  variants take a `fail` flag injecting exactly this behaviour per call
  (each Python function opens its own connection, hence one flag per call).
-/

/-- One row of the `historical_low` table: per `(app_id, region)` running
minimum price, with the date the minimum was set. -/
structure LowRow where
  app_id : Int
  region : String
  lowest_price : ℚ
  date : ℚ
deriving DecidableEq

/-- One row of the `tracked_games` table (the tracked-entity registry). -/
structure GameRow where
  app_id : Int
  name : String
  last_check : ℚ
  is_free : Bool
  image_url : Option String
deriving DecidableEq

/-- One row of the `price_history` table, keyed `(app_id, region, timestamp)`. -/
structure PriceRow where
  app_id : Int
  region : String
  price : ℚ
  discount : Int
  timestamp : ℚ
deriving DecidableEq

/-- One row of the `new_low_events` table (the autoincrement `id` and the
constant-default `notified` column are omitted; rows are identified by
position). -/
structure NewLowRow where
  app_id : Int
  game_name : String
  region : String
  price : ℚ
  currency : String
  date : ℚ
deriving DecidableEq

/-- One row of the `free_game_events` table (again without `id`/`notified`). -/
structure FreeEventRow where
  app_id : Int
  game_name : String
  date : ℚ
deriving DecidableEq

/-- One row of the `sale_notifications` table; `UNIQUE(sale_name, year)` is
the table's constraint, enforced by the write path `mark_sale_notified`. -/
structure SaleRow where
  sale_name : String
  notification_date : ℚ
  year : Int
deriving DecidableEq

/-- The whole persistent store `steam_prices.db`: the six relations the core
reads and writes. -/
structure DB where
  price_history : List PriceRow
  tracked_games : List GameRow
  historical_low : List LowRow
  new_low_events : List NewLowRow
  free_game_events : List FreeEventRow
  sale_notifications : List SaleRow
deriving DecidableEq

/-- The empty database, as `init_db` leaves a fresh file. -/
def DB.empty : DB := ⟨[], [], [], [], [], []⟩

/-- Key predicate of the `historical_low` primary key `(app_id, region)`. -/
def lowKey (app_id : Int) (region : String) (r : LowRow) : Bool :=
  decide (r.app_id = app_id ∧ r.region = region)

/-- `SELECT lowest_price FROM historical_low WHERE app_id=? AND region=?`,
`fetchone`: the stored running minimum for the pair, if the row exists. -/
def storedLow (db : DB) (app_id : Int) (region : String) : Option ℚ :=
  (db.historical_low.find? (lowKey app_id region)).map (·.lowest_price)

/-- `check_historical_low(app_id, region, current_price)` (lines 278–314):
returns the updated database and the tuple
`(is_new_low, old_price, price_drop_percent)`.  No stored row: insert
`(app_id, region, current_price, now)` and report `(True, None, 0)`.  Stored
row beaten by a positive price: update the row's price and date, report the
superseded price and the drop percentage.  Otherwise: no change,
`(False, None, 0)`. -/
def check_historical_low (db : DB) (app_id : Int) (region : String)
    (current_price : ℚ) (now : ℚ) : DB × Bool × Option ℚ × ℚ :=
  match db.historical_low.find? (lowKey app_id region) with
  | none =>
      ({ db with historical_low :=
          db.historical_low ++ [⟨app_id, region, current_price, now⟩] },
       true, none, 0)
  | some row =>
      if current_price < row.lowest_price ∧ 0 < current_price then
        ({ db with historical_low := db.historical_low.map (fun r =>
            if lowKey app_id region r then
              { r with lowest_price := current_price, date := now }
            else r) },
         true, some row.lowest_price,
         ((row.lowest_price - current_price) / row.lowest_price) * 100)
      else
        (db, false, none, 0)

/-- `check_free_game(app_id, is_currently_free)` (lines 316–339): looks up
the tracked game; if a row exists, was not free, and the observation is
free, flips the stored flag and reports `True`; in every other case —
including an unknown `app_id` and a paid observation while the stored flag
is `True` — it changes nothing and reports `False`. -/
def check_free_game (db : DB) (app_id : Int) (is_currently_free : Bool) :
    DB × Bool :=
  match db.tracked_games.find? (fun g => decide (g.app_id = app_id)) with
  | none => (db, false)
  | some g =>
      if !g.is_free && is_currently_free then
        ({ db with tracked_games := db.tracked_games.map (fun r =>
            if r.app_id = app_id then { r with is_free := is_currently_free }
            else r) },
         true)
      else
        (db, false)

/-- `add_tracked_game(app_id, name, is_free, image_url)` (lines 341–353):
`INSERT OR REPLACE` into `tracked_games` keyed by `app_id`. -/
def add_tracked_game (db : DB) (app_id : Int) (name : String)
    (is_free : Bool) (image_url : Option String) (now : ℚ) : DB :=
  { db with tracked_games :=
      db.tracked_games.filter (fun g => decide (¬ g.app_id = app_id)) ++
        [⟨app_id, name, now, is_free, image_url⟩] }

/-- `untrack_game` command body (lines 868–881): look the game up by id;
when present, `DELETE FROM tracked_games WHERE app_id=?` and answer `true`;
otherwise leave everything as is and answer `false`. -/
def untrack_game (db : DB) (app_id : Int) : DB × Bool :=
  match db.tracked_games.find? (fun g => decide (g.app_id = app_id)) with
  | none => (db, false)
  | some _ =>
      ({ db with tracked_games :=
          db.tracked_games.filter (fun g => decide (¬ g.app_id = app_id)) },
       true)

/-- `record_price(app_id, region, price, discount)` (lines 355–366):
`INSERT OR REPLACE` into `price_history`, keyed
`(app_id, region, timestamp)`. -/
def record_price (db : DB) (app_id : Int) (region : String) (price : ℚ)
    (discount : Int) (now : ℚ) : DB :=
  { db with price_history :=
      db.price_history.filter (fun p =>
        decide (¬ (p.app_id = app_id ∧ p.region = region ∧ p.timestamp = now))) ++
        [⟨app_id, region, price, discount, now⟩] }

/-- `record_new_low_event(app_id, game_name, region, price, currency)`
(lines 368–380): plain `INSERT` appending one event row. -/
def record_new_low_event (db : DB) (app_id : Int) (game_name : String)
    (region : String) (price : ℚ) (currency : String) (now : ℚ) : DB :=
  { db with new_low_events :=
      db.new_low_events ++ [⟨app_id, game_name, region, price, currency, now⟩] }

/-- `record_free_game_event(app_id, game_name)` (lines 382–394). -/
def record_free_game_event (db : DB) (app_id : Int) (game_name : String)
    (now : ℚ) : DB :=
  { db with free_game_events :=
      db.free_game_events ++ [⟨app_id, game_name, now⟩] }

/-- `get_historical_low_price(app_id, region)` (lines 396–409):
`SELECT lowest_price, date` for the pair. -/
def get_historical_low_price (db : DB) (app_id : Int) (region : String) :
    Option (ℚ × ℚ) :=
  (db.historical_low.find? (lowKey app_id region)).map
    (fun r => (r.lowest_price, r.date))

/-- The price branch of one `monitor_prices` iteration for a non-free game
with a price overview (lines 459–507): record the price, run
`check_historical_low`, and when it reports a new low, record the
`NewLowEvent` row (note the event row's region is the display string
`"台灣"` while the check uses the code `"tw"`) and send the notification.
Returns the database and whether a new-low notification was produced. -/
def monitor_price_step (db : DB) (app_id : Int) (name : String)
    (current_price : ℚ) (currency : String) (discount : Int) (now : ℚ) :
    DB × Bool :=
  let db1 := record_price db app_id "tw" current_price discount now
  let r := check_historical_low db1 app_id "tw" current_price now
  if r.2.1 then
    (record_new_low_event r.1 app_id name "台灣" current_price currency now,
     true)
  else
    (r.1, false)

/-- `check_historical_low` under an unavailable store: the handler catches,
returns `(False, None, 0)`, and the connection closes uncommitted, leaving
the database unchanged. -/
def check_historical_low_f (fail : Bool) (db : DB) (app_id : Int)
    (region : String) (current_price : ℚ) (now : ℚ) :
    DB × Bool × Option ℚ × ℚ :=
  if fail then (db, false, none, 0)
  else check_historical_low db app_id region current_price now

/-- `record_price` under an unavailable store: caught, nothing committed. -/
def record_price_f (fail : Bool) (db : DB) (app_id : Int) (region : String)
    (price : ℚ) (discount : Int) (now : ℚ) : DB :=
  if fail then db else record_price db app_id region price discount now

/-- `record_new_low_event` under an unavailable store: caught, nothing
committed. -/
def record_new_low_event_f (fail : Bool) (db : DB) (app_id : Int)
    (game_name : String) (region : String) (price : ℚ) (currency : String)
    (now : ℚ) : DB :=
  if fail then db
  else record_new_low_event db app_id game_name region price currency now

/-- The `monitor_prices` price branch with per-connection failure injection:
`record_price`, `check_historical_low` and `record_new_low_event` each open
their own SQLite connection, so each can fail independently of the others. -/
def monitor_price_step_f (fail_price fail_check fail_record : Bool)
    (db : DB) (app_id : Int) (name : String) (current_price : ℚ)
    (currency : String) (discount : Int) (now : ℚ) : DB × Bool :=
  let db1 := record_price_f fail_price db app_id "tw" current_price discount now
  let r := check_historical_low_f fail_check db1 app_id "tw" current_price now
  if r.2.1 then
    (record_new_low_event_f fail_record r.1 app_id name "台灣" current_price
       currency now,
     true)
  else
    (r.1, false)

/-- `is_sale_notified(sale_name, year)` (lines 180–193): whether a
`sale_notifications` row for the pair exists. -/
def is_sale_notified (db : DB) (sale_name : String) (year : Int) : Bool :=
  (db.sale_notifications.find? (fun r =>
    decide (r.sale_name = sale_name ∧ r.year = year))).isSome

/-- `mark_sale_notified(sale_name, year)` (lines 195–207): `INSERT OR
IGNORE` under `UNIQUE(sale_name, year)` — appends a row stamped `now` only
when no row with that key exists, otherwise a no-op. -/
def mark_sale_notified (db : DB) (sale_name : String) (year : Int) (now : ℚ) :
    DB :=
  if db.sale_notifications.any (fun r =>
      decide (r.sale_name = sale_name ∧ r.year = year)) then
    db
  else
    { db with sale_notifications :=
        db.sale_notifications ++ [⟨sale_name, now, year⟩] }

/-- One `STEAM_SALES_CALENDAR` entry (lines 39–46). -/
structure SaleInfo where
  month : Int
  start_day : Int
  duration : Int
  emoji : String
deriving DecidableEq

/-- The static recurring-promotion calendar (lines 39–46), in the source's
insertion order. -/
def STEAM_SALES_CALENDAR : List (String × SaleInfo) :=
  [("春季特賣", ⟨3, 14, 14, "🌸"⟩),
   ("夏季特賣", ⟨6, 23, 14, "☀️"⟩),
   ("秋季特賣", ⟨11, 21, 14, "🍂"⟩),
   ("冬季特賣", ⟨12, 20, 14, "❄️"⟩),
   ("農曆新年特賣", ⟨2, 1, 7, "🧧"⟩),
   ("萬聖節特賣", ⟨10, 28, 7, "🎃"⟩)]

/-- Day number of a proleptic-Gregorian civil date (days since the epoch
1970-01-01), the standard era-based conversion; all divisions act on
non-negative operands for the years in play. -/
def daysFromCivil (y : Int) (m : Int) (d : Int) : Int :=
  let y' : Int := if m ≤ 2 then y - 1 else y
  let era : Int := (if 0 ≤ y' then y' else y' - 399) / 400
  let yoe : Int := y' - era * 400
  let mp : Int := (m + 9) % 12
  let doy : Int := (153 * mp + 2) / 5 + d - 1
  let doe : Int := yoe * 365 + yoe / 4 - yoe / 100 + doy
  era * 146097 + doe - 719468

/-- A Python `datetime`: a civil date plus the time of day as a fraction of
a day (`datetime.now()` virtually always has `0 < frac`). -/
structure PyDateTime where
  year : Int
  month : Int
  day : Int
  frac : ℚ
deriving DecidableEq

/-- The instant as a rational day number; `datetime` comparison and
subtraction are comparison and subtraction of these numbers. -/
def PyDateTime.toRat (t : PyDateTime) : ℚ :=
  (daysFromCivil t.year t.month t.day : ℚ) + t.frac

/-- One element of the `upcoming_sales` list built by
`check_upcoming_sales` (lines 170–176). -/
structure UpcomingSale where
  name : String
  date : ℚ
  days_until : Int
  emoji : String
  duration : Int
deriving DecidableEq

/-- The occurrence date `check_upcoming_sales` computes for one calendar
entry (lines 158–163): this year's start at midnight, bumped to next
year's whenever that midnight instant is strictly before `now`. -/
def saleOccurrence (now : PyDateTime) (info : SaleInfo) : ℚ :=
  let thisYear : ℚ := (daysFromCivil now.year info.month info.start_day : ℚ)
  if thisYear < now.toRat then
    (daysFromCivil (now.year + 1) info.month info.start_day : ℚ)
  else thisYear

/-- `(sale_date - now).days` of the loop body (line 166): the floored
whole-day distance from `now` to the computed occurrence. -/
def saleDaysUntil (now : PyDateTime) (info : SaleInfo) : Int :=
  Int.floor (saleOccurrence now info - now.toRat)

/-- The body of the `check_upcoming_sales` loop for one calendar entry
(lines 157–176): the entry's `UpcomingSale` record when
`0 <= days_until <= 7`, nothing otherwise. -/
def saleEntry (now : PyDateTime) (sale_name : String) (info : SaleInfo) :
    Option UpcomingSale :=
  if 0 ≤ saleDaysUntil now info ∧ saleDaysUntil now info ≤ 7 then
    some ⟨sale_name, saleOccurrence now info, saleDaysUntil now info,
          info.emoji, info.duration⟩
  else none

/-- `check_upcoming_sales()` (lines 152–178): the calendar entries due
within the 7-day lookahead, in calendar order. -/
def check_upcoming_sales (now : PyDateTime) : List UpcomingSale :=
  STEAM_SALES_CALENDAR.filterMap (fun p => saleEntry now p.1 p.2)

/-- Fold a list of `(price, now)` observations for a fixed
`(app_id, region)` through `check_historical_low`, keeping the database. -/
def runLowChecks (db : DB) (app_id : Int) (region : String)
    (obs : List (ℚ × ℚ)) : DB :=
  obs.foldl (fun d pr => (check_historical_low d app_id region pr.1 pr.2).1) db

/-- Fold observations through `check_historical_low`, also collecting each
call's `(is_new_low, old_price, price_drop_percent)` result in order. -/
def runLowResults (db : DB) (app_id : Int) (region : String)
    (obs : List (ℚ × ℚ)) : DB × List (Bool × Option ℚ × ℚ) :=
  obs.foldl (fun acc pr =>
    let r := check_historical_low acc.1 app_id region pr.1 pr.2
    (r.1, acc.2 ++ [r.2])) (db, [])

/-- Fold a sequence of `is_free` flags for one game through
`check_free_game`, collecting each call's `became_free` answer in order. -/
def runFree (db : DB) (app_id : Int) (flags : List Bool) : DB × List Bool :=
  flags.foldl (fun acc f =>
    let r := check_free_game acc.1 app_id f
    (r.1, acc.2 ++ [r.2])) (db, [])

/-- The single-key abstraction of one `check_historical_low` call's effect
on the stored minimum for its own key. -/
def lowStep (s : Option ℚ) (p : ℚ) : Option ℚ :=
  match s with
  | none => some p
  | some l => if p < l ∧ 0 < p then some p else some l

/-! ## Helper lemmas -/

/-- The row update performed by `check_historical_low` changes neither key
field, so every row keeps its `lowKey` verdict. -/
theorem lowKey_update (app_id : Int) (region : String) (p t : ℚ) (x : LowRow) :
    lowKey app_id region
      (if lowKey app_id region x then { x with lowest_price := p, date := t } else x) =
    lowKey app_id region x := by
  by_cases h : lowKey app_id region x = true
  · rw [if_pos h]; simp [lowKey]
  · rw [if_neg h]

/-- The freshly inserted baseline row matches its own key. -/
theorem lowKey_self (app_id : Int) (region : String) (p t : ℚ) :
    lowKey app_id region ⟨app_id, region, p, t⟩ = true := by
  simp [lowKey]

/-- One `check_historical_low` call acts on its own key's stored minimum
exactly as `lowStep`. -/
theorem storedLow_check (db : DB) (app_id : Int) (region : String) (p t : ℚ) :
    storedLow (check_historical_low db app_id region p t).1 app_id region =
      lowStep (storedLow db app_id region) p := by
  unfold storedLow check_historical_low lowStep
  cases h : db.historical_low.find? (lowKey app_id region) with
  | none =>
      simp only [h, List.find?_append, Option.none_or]
      simp [List.find?, lowKey_self]
  | some row =>
      have hk : lowKey app_id region row = true := List.find?_some h
      by_cases hc : p < row.lowest_price ∧ 0 < p
      · simp only [h, if_pos hc]
        rw [List.find?_map]
        have hcomp : (lowKey app_id region ∘ fun r =>
            if lowKey app_id region r then { r with lowest_price := p, date := t } else r) =
            lowKey app_id region := funext fun x => lowKey_update app_id region p t x
        rw [hcomp, h]
        simp [hk, hc]
      · simp [h, hc]

/-- `storedLow` after a fold of checks is the `lowStep` fold of the
observed prices. -/
theorem storedLow_runLowChecks (db : DB) (app_id : Int) (region : String)
    (obs : List (ℚ × ℚ)) :
    storedLow (runLowChecks db app_id region obs) app_id region =
      (obs.map Prod.fst).foldl lowStep (storedLow db app_id region) := by
  induction obs generalizing db with
  | nil => rfl
  | cons o os ih =>
      have hstep : runLowChecks db app_id region (o :: os) =
          runLowChecks (check_historical_low db app_id region o.1 o.2).1
            app_id region os := rfl
      rw [hstep, ih, storedLow_check]
      rfl

/-- Folding `lowStep` from an established minimum keeps a minimum and never
raises it. -/
theorem lowStep_foldl_le (ps : List ℚ) (a : ℚ) :
    ∃ b, ps.foldl lowStep (some a) = some b ∧ b ≤ a := by
  induction ps generalizing a with
  | nil => exact ⟨a, rfl, le_refl a⟩
  | cons p ps ih =>
      rw [List.foldl_cons]
      by_cases h : p < a ∧ 0 < p
      · obtain ⟨b, hb, hba⟩ := ih p
        exact ⟨b, by simpa [lowStep, h] using hb, hba.trans h.1.le⟩
      · obtain ⟨b, hb, hba⟩ := ih a
        exact ⟨b, by simpa [lowStep, h] using hb, hba⟩

/-- Over strictly positive prices, folding `lowStep` computes the plain
running minimum. -/
theorem lowStep_foldl_min (ps : List ℚ) (a : ℚ) (hpos : ∀ p ∈ ps, 0 < p) :
    ps.foldl lowStep (some a) = some (ps.foldl min a) := by
  induction ps generalizing a with
  | nil => rfl
  | cons p ps ih =>
      rw [List.foldl_cons, List.foldl_cons]
      have hp : 0 < p := hpos p (List.mem_cons_self p ps)
      have hpos' : ∀ q ∈ ps, 0 < q := fun q hq => hpos q (List.mem_cons_of_mem p hq)
      by_cases h : p < a
      · rw [show lowStep (some a) p = some p by simp [lowStep, h, hp],
            show min a p = p from min_eq_right h.le]
        exact ih p hpos'
      · rw [show lowStep (some a) p = some a by simp [lowStep, h],
            show min a p = a from min_eq_left (not_lt.mp h)]
        exact ih a hpos'

/-- A `min` fold lands on its seed or on a list element. -/
theorem foldl_min_mem (ps : List ℚ) (a : ℚ) :
    ps.foldl min a = a ∨ ps.foldl min a ∈ ps := by
  induction ps generalizing a with
  | nil => exact Or.inl rfl
  | cons p ps ih =>
      rw [List.foldl_cons]
      rcases ih (min a p) with h | h
      · rcases min_cases a p with ⟨he, _⟩ | ⟨he, _⟩
        · exact Or.inl (h.trans he)
        · exact Or.inr (by rw [h, he]; exact List.mem_cons_self p ps)
      · exact Or.inr (List.mem_cons_of_mem p h)

/-- A `min` fold bounds its seed and every list element from below. -/
theorem foldl_min_le (ps : List ℚ) (a : ℚ) :
    ps.foldl min a ≤ a ∧ ∀ p ∈ ps, ps.foldl min a ≤ p := by
  induction ps generalizing a with
  | nil => exact ⟨le_refl a, by simp⟩
  | cons p ps ih =>
      rw [List.foldl_cons]
      obtain ⟨h1, h2⟩ := ih (min a p)
      refine ⟨h1.trans (min_le_left a p), ?_⟩
      intro q hq
      rcases List.mem_cons.mp hq with rfl | hq
      · exact h1.trans (min_le_right a q)
      · exact h2 q hq

/-! ## Claim theorems -/

/-- C3 (counterexample): starting from a tracked game stored as paid, the
observation sequence `isFree = [false, true, true, false, true]` fires a
`FreeTransitionEvent` only at index 1 — not at index 4 as the claim states —
because the paid observation at index 3 does not write the stored
free-status back to `false` (the run leaves the stored flag `true`). -/
theorem C3_counterexample :
    (runFree ⟨[], [⟨1, "G", 0, false, none⟩], [], [], [], []⟩ 1
      [false, true, true, false, true]).2 = [false, true, false, false, false] ∧
    (runFree ⟨[], [⟨1, "G", 0, false, none⟩], [], [], [], []⟩ 1
      [false, true, true, false, true]).1.tracked_games =
      [⟨1, "G", 0, true, none⟩] := by
  constructor <;> norm_num [runFree, check_free_game]

/-- C3 (amended): an observation with `isFree = false` never changes any
state — in particular it does not write the stored free-status back to
`false`, so the free-transition detector is never re-armed — and for the
sequence `isFree = [false, true, true, false, true]` the transition fires
exactly at index 1, once for the first paid→free edge only. -/
theorem C3_theorem (db : DB) (app_id : Int) :
    check_free_game db app_id false = (db, false) ∧
    (runFree ⟨[], [⟨1, "G", 0, false, none⟩], [], [], [], []⟩ 1
      [false, true, true, false, true]).2 = [false, true, false, false, false] := by
  constructor
  · unfold check_free_game
    cases h : db.tracked_games.find? (fun g => decide (g.app_id = app_id)) with
    | none => rfl
    | some g => simp
  · norm_num [runFree, check_free_game]

/-- C5: `mark_sale_notified` is idempotent — a second call for the same
`(sale_name, year)` leaves the store exactly as after the first call,
`is_sale_notified` answers `true` after either, and the uniqueness invariant
(at most one row per `(sale_name, year)`) is preserved by every call. -/
theorem C5_theorem (db : DB) (sale_name : String) (year : Int) (t1 t2 : ℚ) :
    mark_sale_notified (mark_sale_notified db sale_name year t1) sale_name year t2 =
      mark_sale_notified db sale_name year t1 ∧
    is_sale_notified (mark_sale_notified db sale_name year t1) sale_name year = true ∧
    (db.sale_notifications.countP
        (fun r => decide (r.sale_name = sale_name ∧ r.year = year)) ≤ 1 →
      (mark_sale_notified db sale_name year t1).sale_notifications.countP
        (fun r => decide (r.sale_name = sale_name ∧ r.year = year)) ≤ 1) := by
  by_cases h : db.sale_notifications.any
      (fun r => decide (r.sale_name = sale_name ∧ r.year = year)) = true
  · have h1 : mark_sale_notified db sale_name year t1 = db := by
      rw [mark_sale_notified, if_pos h]
    rw [h1]
    refine ⟨by rw [mark_sale_notified, if_pos h], ?_, fun hc => hc⟩
    rw [is_sale_notified]
    obtain ⟨r, hr, hp⟩ := List.any_eq_true.mp h
    exact List.find?_isSome.mpr ⟨r, hr, hp⟩
  · have h1 : mark_sale_notified db sale_name year t1 =
        { db with sale_notifications :=
            db.sale_notifications ++ [⟨sale_name, t1, year⟩] } := by
      rw [mark_sale_notified, if_neg h]
    have hrow : (fun r : SaleRow => decide (r.sale_name = sale_name ∧ r.year = year))
        ⟨sale_name, t1, year⟩ = true := by simp
    have hTrue : ((db.sale_notifications ++ [⟨sale_name, t1, year⟩] : List SaleRow).any
        (fun r => decide (r.sale_name = sale_name ∧ r.year = year))) = true := by
      rw [List.any_append]
      simp
    refine ⟨?_, ?_, ?_⟩
    · rw [h1, mark_sale_notified, if_pos hTrue]
    · rw [h1, is_sale_notified]
      exact List.find?_isSome.mpr
        ⟨⟨sale_name, t1, year⟩, List.mem_append_right _ (List.mem_singleton_self _), hrow⟩
    · intro _
      rw [h1]
      have hzero : db.sale_notifications.countP
          (fun r => decide (r.sale_name = sale_name ∧ r.year = year)) = 0 := by
        rw [List.countP_eq_zero]
        intro a ha hpa
        exact h (List.any_eq_true.mpr ⟨a, ha, hpa⟩)
      calc (db.sale_notifications ++ [(⟨sale_name, t1, year⟩ : SaleRow)]).countP
            (fun r => decide (r.sale_name = sale_name ∧ r.year = year))
          = db.sale_notifications.countP
              (fun r => decide (r.sale_name = sale_name ∧ r.year = year)) +
            ([(⟨sale_name, t1, year⟩ : SaleRow)]).countP
              (fun r => decide (r.sale_name = sale_name ∧ r.year = year)) :=
            List.countP_append _ _ _
        _ ≤ 1 := by rw [hzero]; simp [List.countP_cons, hrow]

/-- C6: when a `HistoricalLow` row exists and the observed (non-free) price
is at or above the stored minimum, `check_historical_low` returns the
database untouched — in particular the row's `lowest_price` and `date` are
unchanged — reporting `(False, None, 0)`, and the monitor therefore records
no `NewLowEvent` row and sends no notification. -/
theorem C6_theorem (db : DB) (app_id : Int) (region : String) (price now : ℚ)
    (l : ℚ) (h : storedLow db app_id region = some l) (hge : l ≤ price) :
    check_historical_low db app_id region price now = (db, false, none, 0) ∧
    (∀ (name currency : String) (discount : Int), region = "tw" →
      (monitor_price_step db app_id name price currency discount now).2 = false ∧
      (monitor_price_step db app_id name price currency discount now).1.new_low_events =
        db.new_low_events ∧
      (monitor_price_step db app_id name price currency discount now).1.historical_low =
        db.historical_low) := by
  have key : ∀ d : DB, storedLow d app_id region = some l →
      check_historical_low d app_id region price now = (d, false, none, 0) := by
    intro d hd
    obtain ⟨row, hf, hl⟩ := Option.map_eq_some'.mp hd
    simp only [check_historical_low, hf]
    rw [if_neg]
    intro hc
    exact absurd hc.1 (not_lt.mpr (hl ▸ hge))
  refine ⟨key db h, ?_⟩
  rintro name currency discount rfl
  have h1 : storedLow (record_price db app_id "tw" price discount now) app_id "tw" =
      some l := h
  have h2 := key (record_price db app_id "tw" price discount now) h1
  simp only [monitor_price_step, h2]
  exact ⟨rfl, rfl, rfl⟩

/-- C6 (witness): a store holding a low of 50 for `(1, "tw")` sees a price
of 60 and neither mutates the row nor reports a new low. -/
theorem C6_witness :
    check_historical_low ⟨[], [], [⟨1, "tw", 50, 0⟩], [], [], []⟩ 1 "tw" 60 1 =
      (⟨[], [], [⟨1, "tw", 50, 0⟩], [], [], []⟩, false, none, 0) ∧
    (monitor_price_step ⟨[], [], [⟨1, "tw", 50, 0⟩], [], [], []⟩ 1 "G" 60 "USD" 0 1).2 =
      false :=
  have h := C6_theorem ⟨[], [], [⟨1, "tw", 50, 0⟩], [], [], []⟩ 1 "tw" 60 1 50
    (by norm_num [storedLow, lowKey]) (by norm_num)
  ⟨h.1, (h.2 "G" "USD" 0 rfl).1⟩

/-- C7 (counterexample): an `isFree = true` observation for an entity with
no `tracked_games` row emits nothing and changes nothing — the engine does
not treat an unknown entity like one stored as paid, contrary to the
claim. -/
theorem C7_counterexample :
    check_free_game DB.empty 7 true = (DB.empty, false) := rfl

/-- C7 (amended): for an entity unknown to the tracked-entity store, a free
observation emits no `FreeTransitionEvent` and leaves the store unchanged;
the transition fires only for an entity whose stored row exists with
free-status `false`. -/
theorem C7_theorem (db : DB) (app_id : Int) (is_currently_free : Bool)
    (h : db.tracked_games.find? (fun g => decide (g.app_id = app_id)) = none) :
    check_free_game db app_id is_currently_free = (db, false) := by
  unfold check_free_game
  rw [h]

/-- C7 (witness): the empty store sees a free observation for entity 3 and
nothing happens. -/
theorem C7_witness : check_free_game DB.empty 3 true = (DB.empty, false) :=
  C7_theorem DB.empty 3 true rfl

/-- C10: removing a game from the tracking list deletes exactly that game's
`tracked_games` rows and nothing else — `historical_low` and
`price_history` are untouched — so re-tracking the same id resumes against
the previously established minimum baseline. -/
theorem C10_theorem (db : DB) (app_id : Int) :
    (untrack_game db app_id).1.historical_low = db.historical_low ∧
    (untrack_game db app_id).1.price_history = db.price_history ∧
    (∀ g : GameRow, g ∈ (untrack_game db app_id).1.tracked_games ↔
      g ∈ db.tracked_games ∧ ¬ g.app_id = app_id) ∧
    (∀ (name : String) (is_free : Bool) (img : Option String) (t : ℚ)
        (region : String),
      storedLow (add_tracked_game (untrack_game db app_id).1 app_id name is_free img t)
          app_id region = storedLow db app_id region) := by
  unfold untrack_game
  cases h : db.tracked_games.find? (fun g => decide (g.app_id = app_id)) with
  | none =>
      refine ⟨rfl, rfl, ?_, fun name is_free img t region => rfl⟩
      intro g
      constructor
      · intro hg
        refine ⟨hg, ?_⟩
        simpa using List.find?_eq_none.mp h g hg
      · exact fun hg => hg.1
  | some g0 =>
      refine ⟨rfl, rfl, ?_, fun name is_free img t region => rfl⟩
      intro g
      simp [List.mem_filter]

/-- C1 (counterexample): with no `HistoricalLow` row for `(1, "tw")`, the
first non-free observation makes `check_historical_low` report
`is_new_low = True`, so the monitor records a `new_low_events` row and
produces a notification — contradicting the claim that no new-low event row
is recorded and no notification is produced for a first observation. -/
theorem C1_counterexample :
    storedLow DB.empty 1 "tw" = none ∧
    (monitor_price_step DB.empty 1 "G" 100 "USD" 0 0).2 = true ∧
    (monitor_price_step DB.empty 1 "G" 100 "USD" 0 0).1.new_low_events =
      [⟨1, "G", "台灣", 100, "USD", 0⟩] := by
  refine ⟨rfl, ?_, ?_⟩ <;>
    norm_num [monitor_price_step, record_price, record_new_low_event,
      check_historical_low, lowKey, DB.empty]

/-- C1 (amended): for a pair with no `HistoricalLow` row, the first
observation with `isFree = false` inserts a baseline row carrying the
observed price, but `check_historical_low` reports it as
`(is_new_low = True, old_price = None, drop = 0)`, so the monitor does
record a `NewLowEvent` row and does produce a notification; the baseline
case is distinguishable from a genuine drop only by `old_price = None`. -/
theorem C1_theorem (db : DB) (app_id : Int) (name : String) (price : ℚ)
    (currency : String) (discount : Int) (now : ℚ)
    (h : storedLow db app_id "tw" = none) :
    (check_historical_low db app_id "tw" price now).2 = (true, none, 0) ∧
    storedLow (monitor_price_step db app_id name price currency discount now).1
      app_id "tw" = some price ∧
    (monitor_price_step db app_id name price currency discount now).2 = true ∧
    (monitor_price_step db app_id name price currency discount now).1.new_low_events =
      db.new_low_events ++ [⟨app_id, name, "台灣", price, currency, now⟩] := by
  have hf : db.historical_low.find? (lowKey app_id "tw") = none :=
    Option.map_eq_none'.mp h
  have h1 : storedLow (record_price db app_id "tw" price discount now) app_id "tw" =
      none := h
  have hf1 : (record_price db app_id "tw" price discount now).historical_low.find?
      (lowKey app_id "tw") = none := Option.map_eq_none'.mp h1
  have h2 : check_historical_low (record_price db app_id "tw" price discount now)
      app_id "tw" price now =
      ({ record_price db app_id "tw" price discount now with historical_low :=
          (record_price db app_id "tw" price discount now).historical_low ++
            [⟨app_id, "tw", price, now⟩] },
       true, none, 0) := by
    simp only [check_historical_low, hf1]
  refine ⟨?_, ?_, ?_, ?_⟩
  · simp only [check_historical_low, hf]
  · have := storedLow_check (record_price db app_id "tw" price discount now)
      app_id "tw" price now
    rw [h1] at this
    simp only [monitor_price_step, h2]
    simp only [h2] at this
    simpa [record_new_low_event, storedLow, lowStep] using this
  · simp only [monitor_price_step, h2]
    simp
  · simp only [monitor_price_step, h2]
    simp [record_new_low_event, record_price]

/-- C1 (witness): the first observation of price 100 for `(1, "tw")` on an
empty store establishes the baseline yet records an event row. -/
theorem C1_witness :
    (check_historical_low DB.empty 1 "tw" 100 0).2 = (true, none, 0) ∧
    storedLow (monitor_price_step DB.empty 1 "G" 100 "USD" 0 0).1 1 "tw" =
      some 100 ∧
    (monitor_price_step DB.empty 1 "G" 100 "USD" 0 0).2 = true ∧
    (monitor_price_step DB.empty 1 "G" 100 "USD" 0 0).1.new_low_events =
      DB.empty.new_low_events ++ [⟨1, "G", "台灣", 100, "USD", 0⟩] :=
  C1_theorem DB.empty 1 "G" 100 "USD" 0 0 rfl

/-- C2 (counterexample): for `(1, "tw")` and the observation sequence of
prices `[100, 0]` (both `isFree = false`), the stored low stays 100 while
the minimum price observed is 0 — the `current_price > 0` guard makes the
engine ignore the non-positive price, so the stored value does not equal
the minimum of all observed prices (and an observed price lies strictly
below the stored low). -/
theorem C2_counterexample :
    storedLow (runLowChecks DB.empty 1 "tw" [(100, 0), (0, 1)]) 1 "tw" = some 100 ∧
    (0 : ℚ) ∈ ([(100, 0), (0, 1)] : List (ℚ × ℚ)).map Prod.fst ∧
    ¬ (100 : ℚ) ≤ 0 := by
  refine ⟨?_, by norm_num, by norm_num⟩
  norm_num [runLowChecks, check_historical_low, storedLow, lowKey, DB.empty]

/-- C2 (amended): for a fixed `(entity, region)` pair the stored
`HistoricalLow.lowest_price` is non-increasing over time, and — for
observation sequences whose prices are all strictly positive (the
`current_price > 0` guard discards later non-positive prices) — once the
row exists it equals the minimum of all prices observed with
`isFree = false`. -/
theorem C2_theorem (db : DB) (app_id : Int) (region : String) :
    (∀ (l₁ l₂ : List (ℚ × ℚ)) (a : ℚ),
        storedLow (runLowChecks db app_id region l₁) app_id region = some a →
        ∃ b, storedLow (runLowChecks db app_id region (l₁ ++ l₂)) app_id region =
          some b ∧ b ≤ a) ∧
    (∀ obs : List (ℚ × ℚ),
        storedLow db app_id region = none →
        obs ≠ [] →
        (∀ p ∈ obs.map Prod.fst, 0 < p) →
        ∃ a, storedLow (runLowChecks db app_id region obs) app_id region = some a ∧
          a ∈ obs.map Prod.fst ∧ ∀ p ∈ obs.map Prod.fst, a ≤ p) := by
  constructor
  · intro l₁ l₂ a ha
    rw [storedLow_runLowChecks] at ha ⊢
    rw [List.map_append, List.foldl_append, ha]
    exact lowStep_foldl_le _ a
  · intro obs h0 hne hpos
    rw [storedLow_runLowChecks, h0]
    cases obs with
    | nil => exact absurd rfl hne
    | cons o os =>
        rw [List.map_cons, List.foldl_cons]
        have hpos' : ∀ p ∈ os.map Prod.fst, 0 < p :=
          fun p hp => hpos p (List.mem_cons_of_mem _ hp)
        rw [show lowStep none o.1 = some o.1 from rfl,
            lowStep_foldl_min (os.map Prod.fst) o.1 hpos']
        refine ⟨(os.map Prod.fst).foldl min o.1, rfl, ?_, ?_⟩
        · rcases foldl_min_mem (os.map Prod.fst) o.1 with h | h
          · rw [h]; exact List.mem_cons_self _ _
          · exact List.mem_cons_of_mem _ h
        · intro p hp
          obtain ⟨h1, h2⟩ := foldl_min_le (os.map Prod.fst) o.1
          rcases List.mem_cons.mp hp with rfl | hp
          · exact h1
          · exact h2 p hp

/-- C8: on an empty store, entity 1 in region `"tw"` observed at prices
100, 90, 95 (all non-free) yields, in order, a baseline establishment
reported as `(True, None, 0)` — a stored value of 100 with no prior value —
then a new low reported as `(True, Some 100, 10)` (old price 100, new
price 90, a 10% drop), then no event `(False, None, 0)`; the final stored
lowest price is 90. -/
theorem C8_theorem :
    (runLowResults DB.empty 1 "tw" [(100, 0), (90, 1), (95, 2)]).2 =
      [(true, none, 0), (true, some 100, 10), (false, none, 0)] ∧
    storedLow (runLowResults DB.empty 1 "tw" [(100, 0), (90, 1), (95, 2)]).1 1 "tw" =
      some 90 := by
  constructor <;>
    norm_num [runLowResults, check_historical_low, storedLow, lowKey, DB.empty]

/-- Every branch of `check_historical_low` leaves `new_low_events` alone
(the event row is written by a separate call). -/
theorem check_keeps_new_low_events (db : DB) (app_id : Int) (region : String)
    (p t : ℚ) :
    (check_historical_low db app_id region p t).1.new_low_events =
      db.new_low_events := by
  unfold check_historical_low
  split
  · rfl
  · split <;> rfl

/-- C9 (counterexample): with a stored low of 100 for `(1, "tw")`, a price
of 90 arrives; `check_historical_low` commits the update on its own
connection, then the `record_new_low_event` connection fails — the
minimum-price state is mutated to 90 while no event row exists, a partial
mutation the claim rules out. -/
theorem C9_counterexample :
    storedLow (monitor_price_step_f false false true
      ⟨[], [], [⟨1, "tw", 100, 0⟩], [], [], []⟩ 1 "G" 90 "USD" 10 5).1 1 "tw" =
      some 90 ∧
    (monitor_price_step_f false false true
      ⟨[], [], [⟨1, "tw", 100, 0⟩], [], [], []⟩ 1 "G" 90 "USD" 10 5).1.new_low_events =
      [] := by
  constructor <;>
    norm_num [monitor_price_step_f, record_price_f, check_historical_low_f,
      record_new_low_event_f, record_price, check_historical_low, storedLow, lowKey]

/-- C9 (amended): a store failure during the `check_historical_low` call is
atomic for that call — the minimum-price state is unchanged, no event row
is written and no notification is produced; but the state update and the
event recording run on separate connections, so when the store fails only
for `record_new_low_event`, the already-committed state update survives and
the observation ends with a mutated minimum and no event row: the pair is
not atomic as a whole. -/
theorem C9_theorem (db : DB) (app_id : Int) (name : String) (price : ℚ)
    (currency : String) (discount : Int) (now : ℚ) (fp fr : Bool) :
    ((monitor_price_step_f fp true fr db app_id name price currency discount
        now).1.historical_low = db.historical_low ∧
      (monitor_price_step_f fp true fr db app_id name price currency discount
        now).1.new_low_events = db.new_low_events ∧
      (monitor_price_step_f fp true fr db app_id name price currency discount
        now).2 = false) ∧
    (∀ l : ℚ, storedLow db app_id "tw" = some l → price < l → 0 < price →
      storedLow (monitor_price_step_f false false true db app_id name price
          currency discount now).1 app_id "tw" = some price ∧
      (monitor_price_step_f false false true db app_id name price currency
          discount now).1.new_low_events = db.new_low_events) := by
  have hrp : ∀ b : Bool,
      (record_price_f b db app_id "tw" price discount now).historical_low =
        db.historical_low ∧
      (record_price_f b db app_id "tw" price discount now).new_low_events =
        db.new_low_events := by
    intro b; cases b <;> simp [record_price_f, record_price]
  refine ⟨?_, ?_⟩
  · simp only [monitor_price_step_f, check_historical_low_f]
    simp [(hrp fp).1, (hrp fp).2]
  · intro l hl hlt hpos
    have h1 : storedLow (record_price db app_id "tw" price discount now) app_id "tw" =
        some l := hl
    have hnew : (check_historical_low (record_price db app_id "tw" price discount now)
        app_id "tw" price now).2.1 = true := by
      obtain ⟨row, hf, hlp⟩ := Option.map_eq_some'.mp h1
      simp only [check_historical_low, hf]
      rw [if_pos ⟨by rw [hlp]; exact hlt, hpos⟩]
    have e2 : (monitor_price_step_f false false true db app_id name price currency
        discount now).1 =
        (check_historical_low (record_price db app_id "tw" price discount now)
          app_id "tw" price now).1 := by
      simp [monitor_price_step_f, check_historical_low_f, record_price_f,
        record_new_low_event_f, hnew]
    constructor
    · rw [e2]
      have hb := storedLow_check (record_price db app_id "tw" price discount now)
          app_id "tw" price now
      rw [h1] at hb
      rw [hb]
      simp [lowStep, hlt, hpos]
    · rw [e2, check_keeps_new_low_events]
      rfl

/-- C4 (counterexample): at 10:00 on 2026-03-14 — the spring sale's start
date — `check_upcoming_sales` returns nothing: because the start's midnight
instant is strictly before `now`, the occurrence is bumped to 2027 and
`days_until` is 364, not 0, so a window starting "today" is not due. -/
theorem C4_counterexample :
    check_upcoming_sales ⟨2026, 3, 14, 5/12⟩ = [] ∧
    ("春季特賣", (⟨3, 14, 14, "🌸"⟩ : SaleInfo)) ∈ STEAM_SALES_CALENDAR ∧
    saleDaysUntil ⟨2026, 3, 14, 5/12⟩ ⟨3, 14, 14, "🌸"⟩ = 364 := by
  refine ⟨?_, by simp [STEAM_SALES_CALENDAR], ?_⟩
  · norm_num [check_upcoming_sales, STEAM_SALES_CALENDAR, saleEntry, saleDaysUntil,
      saleOccurrence, PyDateTime.toRat, daysFromCivil]
  · norm_num [saleDaysUntil, saleOccurrence, PyDateTime.toRat, daysFromCivil]

/-- C4 (amended): a calendar window is included by `check_upcoming_sales`
exactly when `0 ≤ days_until ≤ 7`, where `days_until` is the floored
whole-day distance from `now` to the computed occurrence — and the computed
occurrence is bumped to next year's start whenever this year's start
(taken at midnight) is strictly before `now`, so a window whose start date
is the current day is due only when `now` is exactly midnight. -/
theorem C4_theorem (now : PyDateTime) (sale_name : String) (info : SaleInfo) :
    ((saleEntry now sale_name info).isSome = true ↔
      0 ≤ saleDaysUntil now info ∧ saleDaysUntil now info ≤ 7) ∧
    (∀ s : UpcomingSale, s ∈ check_upcoming_sales now ↔
      ∃ p ∈ STEAM_SALES_CALENDAR, saleEntry now p.1 p.2 = some s) ∧
    ((daysFromCivil now.year info.month info.start_day : ℚ) < now.toRat →
      saleOccurrence now info =
        (daysFromCivil (now.year + 1) info.month info.start_day : ℚ)) := by
  refine ⟨?_, ?_, ?_⟩
  · unfold saleEntry
    by_cases h : 0 ≤ saleDaysUntil now info ∧ saleDaysUntil now info ≤ 7
    · simp [h]
    · simp [h]
  · intro s
    unfold check_upcoming_sales
    exact List.mem_filterMap
  · intro hlt
    simp only [saleOccurrence]
    rw [if_pos hlt]
